import Mathlib

/-!
Verification of the localstack stack controller (`localstack.go`).

The Go source is shallowly embedded: the `Stack` struct becomes a Lean
structure (the `context.Context` and the docker client handle are not data,
so they are modelled by an explicit environment of call results and by an
explicit trace of runtime-client calls); every runtime-client interaction is
recorded as a `Call`, and the results the external client would produce are
supplied by a `StartEnv`.  The readiness poll loop is driven by a finite
trace of observations (elapsed wall-clock time plus the log-fetch result of
that iteration); a trace that runs out before the loop decides is reported
as `RunResult.hang` (the loop is still running).  Lock usage is embedded
separately as the exact sequence of mutex operations each code path
performs (`MuOp`), with a small interpreter deciding self-deadlock.
-/

namespace Localstack

/-- Fixed internal port number of the emulated service (`Port`). -/
def Port : String := "4566"

/-- Fixed internal port spec (`FixedPort = Port + "/tcp"`). -/
def FixedPort : String := Port ++ "/tcp"

/-- Image reference (`LocalStackImage`). -/
def LocalStackImage : String := "localstack/localstack:3.0"

/-- One host binding record (`nat.PortBinding`): host IP and host port. -/
structure PortBinding where
  hostIP : String
  hostPort : String
deriving DecidableEq, Repr

/-- The `nat.PortMap`: a finite map from port specs to binding slices,
embedded as an association list. -/
abbrev PortMap := List (String × List PortBinding)

/-- Go map update `pm[k] = v`: replaces the entry for `k`, or appends one. -/
def pmSet : PortMap → String → List PortBinding → PortMap
  | [], k, v => [(k, v)]
  | (k', v') :: rest, k, v =>
    if k' == k then (k, v) :: rest else (k', v') :: pmSet rest k v

/-- Go comma-ok map read `v, ok := pm[k]`. -/
def pmFind : PortMap → String → Option (List PortBinding)
  | [], _ => none
  | (k', v) :: rest, k => if k' == k then some v else pmFind rest k

/-- Go plain map read `pm[k]`: the zero value (an empty slice) when absent. -/
def pmGet (pm : PortMap) (k : String) : List PortBinding :=
  (pmFind pm k).getD []

/-- One `mount.Mount` entry as built by `getVolumeMounts`. -/
structure Mount where
  mountType : String
  source : String
  target : String
  readOnly : Bool
deriving DecidableEq, Repr

/-- The controller state (`Stack`).  The `ctx` and `cli` handles carry no
data relevant to the control flow and are replaced by the call-result
environment. -/
structure Stack where
  started : Bool
  reuseExisting : Bool
  containerName : String
  volumeMounts : List (String × String)
  initCompleteLogLine : String
  containerID : String
  initTimeout : Int
  pm : PortMap
  waitForInit : Bool
deriving DecidableEq, Repr

/-- The constructor `New`: `pm` empty, `waitForInit` true, every other field
at its Go zero value. -/
def New : Stack :=
  { started := false
    reuseExisting := false
    containerName := ""
    volumeMounts := []
    initCompleteLogLine := ""
    containerID := ""
    initTimeout := 0
    pm := []
    waitForInit := true }

/-- Modelled from the spec: the option-applying functions (`StackOption`) are
declared outside the given source file; the spec's configuration surface is
"container name, map of extra read-only bind mounts, custom readiness marker
string, init timeout in seconds, reuse-existing-container flag,
enable/disable readiness wait", each option mutating exactly its field. -/
inductive StackOption
  | withContainerName (name : String)
  | withVolumeMounts (vm : List (String × String))
  | withInitCompleteLogLine (line : String)
  | withInitTimeout (seconds : Int)
  | withReuseExisting (b : Bool)
  | withWaitForInit (b : Bool)
deriving DecidableEq, Repr

/-- Application of one option (`opt(s)` in the loop of `Start`). -/
def applyOpt (s : Stack) : StackOption → Stack
  | .withContainerName n => { s with containerName := n }
  | .withVolumeMounts vm => { s with volumeMounts := vm }
  | .withInitCompleteLogLine l => { s with initCompleteLogLine := l }
  | .withInitTimeout t => { s with initTimeout := t }
  | .withReuseExisting b => { s with reuseExisting := b }
  | .withWaitForInit b => { s with waitForInit := b }

/-- One call issued to the container-runtime client, with its arguments. -/
inductive Call
  | imageList (reference : String)
  | imagePull (reference : String)
  | containerCreate (image : String) (name : String) (bindings : PortMap)
      (mounts : List Mount)
  | containerStart (id : String)
  | containerStop (id : String) (timeoutSeconds : Int)
  | containerInspect (id : String)
  | containerLogs (id : String)
deriving DecidableEq, Repr

/-- One image summary returned by the image list call (`{repoTags}`). -/
structure ImageSummary where
  repoTags : List String
deriving DecidableEq, Repr

/-- Result of one log fetch inside `initComplete`: the `ContainerLogs` call
may fail, the `io.ReadAll` of its stream may fail, or the accumulated
stdout text is returned. -/
inductive LogsResult
  | fetchErr (e : String)
  | readErr (e : String)
  | content (text : String)
deriving DecidableEq, Repr

/-- One iteration of the readiness poll loop as the environment sees it:
the wall-clock nanoseconds elapsed since the loop started (the value
`time.Since(start)` reads at the top of the iteration) and the log fetch
outcome of that iteration. -/
structure Obs where
  elapsedNs : Nat
  logs : LogsResult
deriving DecidableEq, Repr

/-- Results the external collaborators return during one start sequence. -/
structure StartEnv where
  clientResult : Except String Unit
  listResult : Except String (List ImageSummary)
  pullResult : Except String Unit
  drainResult : Except String Unit
  createResult : Except String String
  startResult : Except String Unit
  pollObs : List Obs
  inspectResult : Except String PortMap

/-- Substring test on character lists (`needle` occurs inside `hay`). -/
def charsContain (needle : List Char) : List Char → Bool
  | [] => needle.isEmpty
  | c :: rest => needle.isPrefixOf (c :: rest) || charsContain needle rest

/-- Go's `strings.Contains(hay, needle)`. -/
def strContains (hay needle : String) : Bool :=
  charsContain needle.data hay.data

/-- The create-collision message `Start` greps for:
`fmt.Sprintf("The container name \"%s\" is already in use by container", name)`. -/
def nameInUseMsg (name : String) : String :=
  "The container name \"" ++ name ++ "\" is already in use by container"

/-- The timeout error of the poll loop:
`fmt.Errorf("localstack: init timeout exceeded (%d seconds)", initTimeout)`. -/
def timeoutMsg (t : Int) : String :=
  "localstack: init timeout exceeded (" ++ toString t ++ " seconds)"

/-- One poll iteration's readiness check (`initComplete`): a failed log
fetch or a failed read yields `false`; otherwise the snapshot is checked
for the marker, defaulting to `"Ready."` when `initCompleteLogLine` is
unset. -/
def Stack.initComplete (s : Stack) (lr : LogsResult) : Bool :=
  match lr with
  | .fetchErr _ => false
  | .readErr _ => false
  | .content text =>
    let logLineCheck := if s.initCompleteLogLine == "" then "Ready." else s.initCompleteLogLine
    strContains text logLineCheck

/-- The timeout condition checked at the top of each poll iteration:
`s.initTimeout > 0 && time.Since(start) > time.Duration(s.initTimeout)*time.Second`,
with both durations in nanoseconds. -/
def pollTimedOut (s : Stack) (o : Obs) : Prop :=
  0 < s.initTimeout ∧ s.initTimeout * 1000000000 < (o.elapsedNs : Int)

instance (s : Stack) (o : Obs) : Decidable (pollTimedOut s o) :=
  inferInstanceAs (Decidable (_ ∧ _))

/-- The readiness poll loop of `start`, driven by the observation trace:
at each iteration the timeout condition is checked first, then
`initComplete` (issuing one logs call); an undecided loop on an exhausted
trace yields `none`.  Returns the logs calls issued and the loop's
outcome. -/
def Stack.pollLoop (s : Stack) : List Obs → List Call × Option (Except String Unit)
  | [] => ([], none)
  | o :: rest =>
    if pollTimedOut s o then
      ([], some (Except.error (timeoutMsg s.initTimeout)))
    else if s.initComplete o.logs then
      ([Call.containerLogs s.containerID], some (Except.ok ()))
    else
      let r := s.pollLoop rest
      (Call.containerLogs s.containerID :: r.1, r.2)

/-- Image provisioning (`ensureImage`): list images filtered by reference;
if any repo tag equals the name, done; otherwise pull and drain the
progress stream (the drain result is the call's result). -/
def ensureImage (imageName : String) (env : StartEnv) : List Call × Except String Unit :=
  match env.listResult with
  | .error e => ([Call.imageList imageName], .error e)
  | .ok images =>
    if images.any fun img => img.repoTags.any fun tag => tag == imageName then
      ([Call.imageList imageName], .ok ())
    else
      match env.pullResult with
      | .error e => ([Call.imageList imageName, Call.imagePull imageName], .error e)
      | .ok _ => ([Call.imageList imageName, Call.imagePull imageName], env.drainResult)

/-- Mount planning (`getVolumeMounts`): one read-only bind mount per
caller-supplied `(containerPath, hostPath)` pair, then one bind mount of
the runtime control socket with `ReadOnly` left at its zero value. -/
def Stack.getVolumeMounts (s : Stack) : List Mount :=
  (s.volumeMounts.map fun p =>
    { mountType := "bind", source := p.2, target := p.1, readOnly := true }) ++
  [{ mountType := "bind", source := "/var/run/docker.sock",
     target := "/var/run/docker.sock", readOnly := false }]

/-- Endpoint derivation (`EndpointURL`).  The result `none` models the Go
index-out-of-range panic of `port[0]` when the stored binding slice is
empty; the controller itself only ever stores singleton slices. -/
def Stack.EndpointURL (s : Stack) : Option String :=
  if s.containerID != "" then
    match pmFind s.pm FixedPort with
    | some bindings =>
      match bindings with
      | [] => none
      | b :: _ => some ("http://" ++ b.hostIP ++ ":" ++ b.hostPort)
    | none => some ""
  else some ""

/-- The private `stop`: a no-op unless started and owning a container;
otherwise one runtime stop with a ten-second grace period, clearing
`containerID` and `started` only on success. -/
def Stack.stopRun (s : Stack) (stopResult : Except String Unit) :
    Stack × List Call × Except String Unit :=
  if !s.started || s.containerID == "" then (s, [], Except.ok ())
  else
    match stopResult with
    | .error e => (s, [Call.containerStop s.containerID 10], Except.error e)
    | .ok _ =>
      ({ s with containerID := "", started := false },
       [Call.containerStop s.containerID 10], Except.ok ())

/-- The exported `Stop`: takes the lock and delegates to the private stop. -/
def Stack.StopRun (s : Stack) (stopResult : Except String Unit) :
    Stack × List Call × Except String Unit :=
  s.stopRun stopResult

/-- Outcome of one `Start` call: normal return with the final controller
state and the runtime calls issued; an error return; a Go runtime panic
(`bindings[0]` on an empty slice); a self-deadlock on the controller's
mutex; or a poll loop still running when its observation trace ran out. -/
inductive RunResult
  | ok (s : Stack) (calls : List Call)
  | err (s : Stack) (calls : List Call) (msg : String)
  | crashed (s : Stack) (calls : List Call)
  | deadlock (calls : List Call)
  | hang (s : Stack) (calls : List Call)
deriving DecidableEq, Repr

/-- The controller state a finished call left behind (`none` when the call
never returns: panic, deadlock or a still-running poll loop). -/
def RunResult.stateOf : RunResult → Option Stack
  | .ok s _ => some s
  | .err s _ _ => some s
  | .crashed _ _ => none
  | .deadlock _ => none
  | .hang _ _ => none

/-- The runtime calls a `Start` outcome issued. -/
def RunResult.callsOf : RunResult → List Call
  | .ok _ c => c
  | .err _ c _ => c
  | .crashed _ c => c
  | .deadlock c => c
  | .hang _ c => c

/-- Tail of the private `start` from the post-start inspection on
(`ContainerInspect`, reading `ports[FixedPort]`, narrowing the port map to
the localhost binding and marking `started`); `cs` are the calls issued so
far.  Inspecting zero bindings indexes an empty slice (`crashed`). -/
def Stack.inspectStage (s2 : Stack) (cs : List Call) (env : StartEnv) : RunResult :=
  match env.inspectResult with
  | .error e => .err s2 (cs ++ [Call.containerInspect s2.containerID]) e
  | .ok ports =>
    match pmGet ports FixedPort with
    | [] => .crashed s2 (cs ++ [Call.containerInspect s2.containerID])
    | b :: _ =>
      let s3 := { s2 with
        pm := pmSet s2.pm FixedPort [{ hostIP := "localhost", hostPort := b.hostPort }] }
      .ok { s3 with started := true } (cs ++ [Call.containerInspect s2.containerID])

/-- Tail of the private `start` from the readiness wait on: the poll loop
runs only when `waitForInit` is set; a poll error (the timeout) is
returned, and an exhausted trace leaves the loop running (`hang`). -/
def Stack.pollStage (s2 : Stack) (cs : List Call) (env : StartEnv) : RunResult :=
  match (if s2.waitForInit then s2.pollLoop env.pollObs else ([], some (Except.ok ()))) with
  | (pcs, none) => .hang s2 (cs ++ pcs)
  | (pcs, some (.error e)) => .err s2 (cs ++ pcs) e
  | (pcs, some (.ok _)) => s2.inspectStage (cs ++ pcs) env

/-- Tail of the private `start` from container creation on: a create
failure that is a name collision is downgraded to success when
`reuseExisting` is set, otherwise wrapped and returned; on success the
returned identifier is recorded and the container is started. -/
def Stack.createStage (s1 : Stack) (cs : List Call) (env : StartEnv) : RunResult :=
  let cc := Call.containerCreate LocalStackImage s1.containerName s1.pm s1.getVolumeMounts
  match env.createResult with
  | .error e =>
    if s1.reuseExisting && strContains e (nameInUseMsg s1.containerName) then
      .ok s1 (cs ++ [cc])
    else
      .err s1 (cs ++ [cc]) ("localstack: could not create container: " ++ e)
  | .ok id =>
    let s2 := { s1 with containerID := id }
    match env.startResult with
    | .error e => .err s2 (cs ++ [cc, Call.containerStart id]) e
    | .ok _ => s2.pollStage (cs ++ [cc, Call.containerStart id]) env

/-- The private `start` sequence: request an ephemeral binding for the fixed
port, ensure the image, then create, start, poll and inspect
(`createStage`/`pollStage`/`inspectStage` are its sequential tail).  The
exit watcher goroutine spawned at the top touches no state until the
cancellation signal fires and is embedded separately (`watcherMuOps`,
`Reach.watcherStep`). -/
def Stack.startSeq (s0 : Stack) (env : StartEnv) : RunResult :=
  let s1 := { s0 with pm := pmSet s0.pm FixedPort [{ hostIP := "0.0.0.0", hostPort := "" }] }
  match ensureImage LocalStackImage env with
  | (cs, .error e) => .err s1 cs e
  | (cs, .ok _) => s1.createStage cs env

/-- The exported `Start`: under the lock, an already-started stack returns
nil at once unless a restart is forced; a forced restart calls the exported
`Stop`, which re-acquires the mutex this call already holds — `sync.RWMutex`
is not reentrant, so the call blocks forever (`StartMuOps`/`muRun` below
derive this).  Otherwise the options are applied, the runtime client is
built, and the private start sequence runs. -/
def Stack.StartRun (s : Stack) (forceRestart : Bool) (opts : List StackOption)
    (env : StartEnv) : RunResult :=
  if s.started then
    if !forceRestart then .ok s []
    else .deadlock []
  else
    let s1 := opts.foldl applyOpt s
    match env.clientResult with
    | .error e => .err s1 [] e
    | .ok _ => s1.startSeq env

/-- One mutex operation on the controller's embedded `sync.RWMutex`. -/
inductive MuOp
  | acq
  | rel
deriving DecidableEq, Repr

/-- Mutex operations of the private `stop`: none (it assumes its caller
holds the lock). -/
def stopMuOps : List MuOp := []

/-- Mutex operations of the exported `Stop`: `s.Lock()`,
`defer s.Unlock()` around the private stop. -/
def StopMuOps : List MuOp := [MuOp.acq] ++ stopMuOps ++ [MuOp.rel]

/-- Mutex operations of the exit watcher goroutine body: it calls the
private `s.stop()` directly, so it performs no lock operation at all. -/
def watcherMuOps : List MuOp := stopMuOps

/-- Mutex operations of the private `start`: none of its own. -/
def startSeqMuOps : List MuOp := []

/-- Mutex operations of the exported `Start`: `s.Lock()` at entry,
`defer s.Unlock()`; a forced restart of a started stack runs the exported
`Stop` (and hence its lock operations) in between. -/
def StartMuOps (started forceRestart : Bool) : List MuOp :=
  [MuOp.acq] ++
    (if started then (if !forceRestart then [] else StopMuOps) else startSeqMuOps) ++
    [MuOp.rel]

/-- Runs a sequence of mutex operations from a lock state (`true` = held by
this goroutine); acquiring a lock already held blocks forever (`none`),
since `sync.RWMutex` is not reentrant. -/
def muRun : Bool → List MuOp → Option Bool
  | held, [] => some held
  | held, MuOp.acq :: rest => if held then none else muRun true rest
  | _, MuOp.rel :: rest => muRun false rest

/-- A call whose mutex operations block when started with the lock free. -/
def blocksForever (ops : List MuOp) : Bool :=
  (muRun false ops).isNone

/-- The runtime collaborator's contract for container creation: a
successful create reports a non-empty container identifier. -/
def goodEnv (env : StartEnv) : Prop :=
  ∀ id, env.createResult = Except.ok id → id ≠ ""

/-- Controller states reachable from `New` through finished `Start` and
`Stop` calls (under runtime environments honouring the create contract)
and through the exit watcher's stop path. -/
inductive Reach : Stack → Prop
  | init : Reach New
  | startStep (s s' : Stack) (f : Bool) (opts : List StackOption) (env : StartEnv) :
      Reach s → goodEnv env → (Stack.StartRun s f opts env).stateOf = some s' → Reach s'
  | stopStep (s : Stack) (r : Except String Unit) :
      Reach s → Reach (s.StopRun r).1
  | watcherStep (s : Stack) (r : Except String Unit) :
      Reach s → Reach (s.stopRun r).1

/-- The state invariant of the claim: a started controller owns a container
and holds a narrowed localhost binding for the fixed port. -/
def StackInv (s : Stack) : Prop :=
  s.started = true → s.containerID ≠ "" ∧
    ∃ p, pmFind s.pm FixedPort = some [{ hostIP := "localhost", hostPort := p }]

/-- An environment in which every collaborator call succeeds and the marker
is present in the first log snapshot fetched. -/
def envAllOk : StartEnv :=
  { clientResult := .ok ()
    listResult := .ok [{ repoTags := [LocalStackImage] }]
    pullResult := .ok ()
    drainResult := .ok ()
    createResult := .ok "abc123"
    startResult := .ok ()
    pollObs := [{ elapsedNs := 700000000, logs := .content "... Ready. ..." }]
    inspectResult := .ok [(FixedPort, [{ hostIP := "0.0.0.0", hostPort := "32768" }])] }

/-- The state a fully successful start from `New` under `envAllOk` leaves. -/
def stackAllOk : Stack :=
  { started := true, reuseExisting := false, containerName := "", volumeMounts := [],
    initCompleteLogLine := "", containerID := "abc123", initTimeout := 0,
    pm := [(FixedPort, [{ hostIP := "localhost", hostPort := "32768" }])],
    waitForInit := true }

/-- An environment whose container start call fails after a successful
create: the start sequence stops with the placeholder binding written and
the container identifier recorded. -/
def envStartFails : StartEnv :=
  { clientResult := .ok ()
    listResult := .ok [{ repoTags := [LocalStackImage] }]
    pullResult := .ok ()
    drainResult := .ok ()
    createResult := .ok "abc123"
    startResult := .error "start failed"
    pollObs := []
    inspectResult := .error "unused" }

/-- The state `envStartFails` leaves behind: mid-start shape, after
creation and before port resolution. -/
def stackMidStart : Stack :=
  { New with
    containerID := "abc123",
    pm := [(FixedPort, [{ hostIP := "0.0.0.0", hostPort := "" }])] }

/-- An all-succeeding environment whose two log snapshots never show the
marker: the default unbounded wait is still running when the trace ends. -/
def envNeverReady : StartEnv :=
  { clientResult := .ok ()
    listResult := .ok [{ repoTags := [LocalStackImage] }]
    pullResult := .ok ()
    drainResult := .ok ()
    createResult := .ok "abc123"
    startResult := .ok ()
    pollObs := [{ elapsedNs := 600000000, logs := .content "still booting" },
                { elapsedNs := 1200000000, logs := .fetchErr "eof" }]
    inspectResult := .ok [(FixedPort, [{ hostIP := "0.0.0.0", hostPort := "32768" }])] }

/-- An environment whose create call fails with the daemon's name-conflict
message for the container name `ls-main`. -/
def envCollision : StartEnv :=
  { clientResult := .ok ()
    listResult := .ok [{ repoTags := [LocalStackImage] }]
    pullResult := .ok ()
    drainResult := .ok ()
    createResult := .error "Error response from daemon: Conflict. The container name \"ls-main\" is already in use by container \"0123456789ab\". You have to remove (or rename) that container to be able to reuse that name."
    startResult := .ok ()
    pollObs := []
    inspectResult := .error "unused" }

/-- Sanity check: a fully successful start from `New` issues list, create,
start, one logs poll and inspect, and ends started with the narrowed
localhost binding. -/
theorem sanity_full_start :
    Stack.StartRun New false [] envAllOk =
      RunResult.ok stackAllOk
        [Call.imageList LocalStackImage,
         Call.containerCreate LocalStackImage ""
           [(FixedPort, [{ hostIP := "0.0.0.0", hostPort := "" }])]
           [{ mountType := "bind", source := "/var/run/docker.sock",
              target := "/var/run/docker.sock", readOnly := false }],
         Call.containerStart "abc123",
         Call.containerLogs "abc123",
         Call.containerInspect "abc123"] := by
  rfl

/-- Sanity check: a name-collision create under `reuseExisting` ends the
sequence as a success right after the create call, with `started` still
false and no identifier recorded. -/
theorem sanity_collision_run :
    Stack.StartRun New false
      [StackOption.withContainerName "ls-main", StackOption.withReuseExisting true]
      envCollision =
    RunResult.ok
      { New with
        containerName := "ls-main",
        reuseExisting := true,
        pm := [(FixedPort, [{ hostIP := "0.0.0.0", hostPort := "" }])] }
      [Call.imageList LocalStackImage,
       Call.containerCreate LocalStackImage "ls-main"
         [(FixedPort, [{ hostIP := "0.0.0.0", hostPort := "" }])]
         [{ mountType := "bind", source := "/var/run/docker.sock",
            target := "/var/run/docker.sock", readOnly := false }]] := by
  rfl

/-- Folding the option applications never changes the `started` flag. -/
theorem foldl_applyOpt_started (opts : List StackOption) (s : Stack) :
    (opts.foldl applyOpt s).started = s.started := by
  induction opts generalizing s with
  | nil => rfl
  | cons o t ih =>
    have : (applyOpt s o).started = s.started := by cases o <;> rfl
    simpa [List.foldl, this] using ih (applyOpt s o)

/-- Reading back the key just written into the port map. -/
theorem pmFind_pmSet_self (pm : PortMap) (k : String) (v : List PortBinding) :
    pmFind (pmSet pm k v) k = some v := by
  induction pm with
  | nil => simp [pmSet, pmFind]
  | cons e rest ih =>
    rcases e with ⟨k', v'⟩
    by_cases hk : k' == k
    · simp [pmSet, hk, pmFind]
    · simp [pmSet, hk, pmFind, ih]

/-- An error return from the inspect stage leaves the state it was given. -/
theorem inspectStage_err (s2 : Stack) (cs : List Call) (env : StartEnv) (s' : Stack)
    (c : List Call) (m : String) (h : s2.inspectStage cs env = RunResult.err s' c m) :
    s' = s2 := by
  cases hI : env.inspectResult with
  | error e =>
    simp [Stack.inspectStage, hI] at h
    exact h.1.symm
  | ok ports =>
    rcases hB : pmGet ports FixedPort with _ | ⟨b, rest⟩
    · simp [Stack.inspectStage, hI, hB] at h
    · simp [Stack.inspectStage, hI, hB] at h

/-- A normal return from the inspect stage narrowed the port map to the
localhost binding carrying the first inspected host port and set
`started`. -/
theorem inspectStage_ok (s2 : Stack) (cs : List Call) (env : StartEnv) (s' : Stack)
    (c : List Call) (h : s2.inspectStage cs env = RunResult.ok s' c) :
    ∃ ports b rest, env.inspectResult = Except.ok ports ∧
      pmGet ports FixedPort = b :: rest ∧
      s' = { s2 with
        pm := pmSet s2.pm FixedPort [{ hostIP := "localhost", hostPort := b.hostPort }],
        started := true } := by
  cases hI : env.inspectResult with
  | error e => simp [Stack.inspectStage, hI] at h
  | ok ports =>
    rcases hB : pmGet ports FixedPort with _ | ⟨b, rest⟩
    · simp [Stack.inspectStage, hI, hB] at h
    · refine ⟨ports, b, rest, rfl, hB, ?_⟩
      simp [Stack.inspectStage, hI, hB] at h
      exact h.1.symm

/-- An error return from the poll stage leaves the state it was given. -/
theorem pollStage_err (s2 : Stack) (cs : List Call) (env : StartEnv) (s' : Stack)
    (c : List Call) (m : String) (h : s2.pollStage cs env = RunResult.err s' c m) :
    s' = s2 := by
  rcases hP : (if s2.waitForInit then s2.pollLoop env.pollObs else ([], some (Except.ok ())))
    with ⟨pcs, r⟩
  rcases r with _ | r
  · simp [Stack.pollStage, hP] at h
  · rcases r with e | u
    · simp [Stack.pollStage, hP] at h
      exact h.1.symm
    · simp [Stack.pollStage, hP] at h
      exact inspectStage_err _ _ _ _ _ _ h

/-- A normal return from the poll stage went on to the inspect stage. -/
theorem pollStage_ok (s2 : Stack) (cs : List Call) (env : StartEnv) (s' : Stack)
    (c : List Call) (h : s2.pollStage cs env = RunResult.ok s' c) :
    ∃ ports b rest, env.inspectResult = Except.ok ports ∧
      pmGet ports FixedPort = b :: rest ∧
      s' = { s2 with
        pm := pmSet s2.pm FixedPort [{ hostIP := "localhost", hostPort := b.hostPort }],
        started := true } := by
  rcases hP : (if s2.waitForInit then s2.pollLoop env.pollObs else ([], some (Except.ok ())))
    with ⟨pcs, r⟩
  rcases r with _ | r
  · simp [Stack.pollStage, hP] at h
  · rcases r with e | u
    · simp [Stack.pollStage, hP] at h
    · simp [Stack.pollStage, hP] at h
      exact inspectStage_ok _ _ _ _ _ h

/-- An error return from the create stage never changes the `started`
flag. -/
theorem createStage_err (s1 : Stack) (cs : List Call) (env : StartEnv) (s' : Stack)
    (c : List Call) (m : String) (h : s1.createStage cs env = RunResult.err s' c m) :
    s'.started = s1.started := by
  cases hC : env.createResult with
  | error e =>
    by_cases hRE : (s1.reuseExisting && strContains e (nameInUseMsg s1.containerName)) = true
    · simp [Stack.createStage, hC, hRE] at h
    · have hRE' : (s1.reuseExisting && strContains e (nameInUseMsg s1.containerName)) = false := by
        simpa using hRE
      simp [Stack.createStage, hC, hRE'] at h
      rw [← h.1]
  | ok id =>
    cases hS : env.startResult with
    | error e =>
      simp [Stack.createStage, hC, hS] at h
      rw [← h.1]
    | ok u =>
      simp [Stack.createStage, hC, hS] at h
      rw [pollStage_err _ _ _ _ _ _ h]

/-- A normal return from the create stage is either the downgraded name
collision (state unchanged) or a completed create/start/poll/inspect with
the identifier recorded, the localhost binding installed and `started`
set. -/
theorem createStage_ok (s1 : Stack) (cs : List Call) (env : StartEnv) (s' : Stack)
    (c : List Call) (h : s1.createStage cs env = RunResult.ok s' c) :
    s' = s1 ∨
    ∃ id ports b rest, env.createResult = Except.ok id ∧
      env.inspectResult = Except.ok ports ∧
      pmGet ports FixedPort = b :: rest ∧
      s' = { s1 with
        containerID := id,
        pm := pmSet s1.pm FixedPort [{ hostIP := "localhost", hostPort := b.hostPort }],
        started := true } := by
  cases hC : env.createResult with
  | error e =>
    by_cases hRE : (s1.reuseExisting && strContains e (nameInUseMsg s1.containerName)) = true
    · simp [Stack.createStage, hC, hRE] at h
      exact Or.inl h.1.symm
    · have hRE' : (s1.reuseExisting && strContains e (nameInUseMsg s1.containerName)) = false := by
        simpa using hRE
      simp [Stack.createStage, hC, hRE'] at h
  | ok id =>
    cases hS : env.startResult with
    | error e => simp [Stack.createStage, hC, hS] at h
    | ok u =>
      simp [Stack.createStage, hC, hS] at h
      rcases pollStage_ok _ _ _ _ _ h with ⟨ports, b, rest, hI, hB, hs'⟩
      refine Or.inr ⟨id, ports, b, rest, rfl, hI, hB, ?_⟩
      rw [hs']

/-- An error return from the whole start sequence never changes the
`started` flag. -/
theorem startSeq_err_started (s : Stack) (env : StartEnv) (s' : Stack) (c : List Call)
    (m : String) (h : Stack.startSeq s env = RunResult.err s' c m) :
    s'.started = s.started := by
  rcases hE : ensureImage LocalStackImage env with ⟨cs0, r0⟩
  rcases r0 with e | u
  · simp [Stack.startSeq, hE] at h
    rw [← h.1]
  · simp [Stack.startSeq, hE] at h
    rw [createStage_err _ _ _ _ _ _ h]

/-- A normal return from the whole start sequence is either the downgraded
name collision (only the placeholder binding written) or a full success
carrying the created identifier and the narrowed localhost binding. -/
theorem startSeq_ok_cases (s : Stack) (env : StartEnv) (s' : Stack) (c : List Call)
    (h : Stack.startSeq s env = RunResult.ok s' c) :
    s' = { s with pm := pmSet s.pm FixedPort [{ hostIP := "0.0.0.0", hostPort := "" }] } ∨
    ∃ id ports b rest, env.createResult = Except.ok id ∧
      env.inspectResult = Except.ok ports ∧
      pmGet ports FixedPort = b :: rest ∧
      s' = { s with
        containerID := id,
        pm := pmSet (pmSet s.pm FixedPort [{ hostIP := "0.0.0.0", hostPort := "" }])
                FixedPort [{ hostIP := "localhost", hostPort := b.hostPort }],
        started := true } := by
  rcases hE : ensureImage LocalStackImage env with ⟨cs0, r0⟩
  rcases r0 with e | u
  · simp [Stack.startSeq, hE] at h
  · simp [Stack.startSeq, hE] at h
    rcases createStage_ok _ _ _ _ _ h with h1 | ⟨id, ports, b, rest, hC, hI, hB, h1⟩
    · exact Or.inl h1
    · exact Or.inr ⟨id, ports, b, rest, hC, hI, hB, h1⟩

/-- A completed start sequence from a non-started state satisfies the
controller invariant, given the create contract. -/
theorem startSeq_inv (s : Stack) (env : StartEnv) (hs : s.started = false)
    (hg : goodEnv env) (s' : Stack) (c : List Call)
    (h : Stack.startSeq s env = RunResult.ok s' c) : StackInv s' := by
  rcases startSeq_ok_cases s env s' c h with h1 | ⟨id, ports, b, rest, hcr, _, _, h1⟩
  · subst h1
    intro hst
    simp [hs] at hst
  · subst h1
    intro _
    constructor
    · simpa using hg id hcr
    · exact ⟨b.hostPort, by simp [pmFind_pmSet_self]⟩

/-- The private stop preserves the controller invariant. -/
theorem stopRun_preserves_inv (s : Stack) (r : Except String Unit) (ih : StackInv s) :
    StackInv (s.stopRun r).1 := by
  by_cases h1 : (!s.started || s.containerID == "") = true
  · simpa [Stack.stopRun, h1] using ih
  · have h1' : (!s.started || s.containerID == "") = false := by simpa using h1
    rcases r with e | u
    · simpa [Stack.stopRun, h1'] using ih
    · simp [Stack.stopRun, h1']
      intro hst
      simp at hst

/-- C3 counterexample.  The claim says `EndpointURL` returns the empty
string at any point before a successful start has completed; but in the
concrete state reached from `New` when the runtime start call fails (after
creation, before port resolution) it returns `"http://0.0.0.0:"`, built
from the pre-start placeholder binding, which is not the empty string. -/
theorem C3_endpoint_url_cex :
    (Stack.StartRun New false [] envStartFails).stateOf = some stackMidStart ∧
    stackMidStart.started = false ∧
    Stack.EndpointURL stackMidStart = some "http://0.0.0.0:" ∧
    some "http://0.0.0.0:" ≠ (some "" : Option String) := by
  exact ⟨by rfl, by rfl, by rfl, by decide⟩

/-- C3 amended.  `EndpointURL` returns the empty string whenever no
container identifier is recorded; after a successful start it returns
`http://localhost:<p>` where `<p>` is exactly the first host port reported
by inspection for the fixed port; but between container creation and port
resolution (including after a start that failed past creation) the port
map still holds the placeholder binding `0.0.0.0`/empty and `EndpointURL`
returns `"http://0.0.0.0:"`, not the empty string. -/
theorem C3_endpoint_url_amended :
    (∀ s : Stack, s.containerID = "" → s.EndpointURL = some "") ∧
    (∀ (s s' : Stack) (opts : List StackOption) (env : StartEnv) (c : List Call),
      goodEnv env → s.started = false →
      Stack.StartRun s false opts env = RunResult.ok s' c → s'.started = true →
      ∃ ports b rest, env.inspectResult = Except.ok ports ∧
        pmGet ports FixedPort = b :: rest ∧
        s'.EndpointURL = some ("http://localhost:" ++ b.hostPort)) ∧
    (∀ s : Stack, s.containerID ≠ "" →
      pmFind s.pm FixedPort = some [{ hostIP := "0.0.0.0", hostPort := "" }] →
      s.EndpointURL = some "http://0.0.0.0:") := by
  refine ⟨?_, ?_, ?_⟩
  · intro s h
    simp [Stack.EndpointURL, h]
  · intro s s' opts env c hg hs hrun hstart
    cases hc : env.clientResult with
    | error e =>
      rw [show Stack.StartRun s false opts env = RunResult.err (opts.foldl applyOpt s) [] e
        from by simp [Stack.StartRun, hs, hc]] at hrun
      simp at hrun
    | ok u =>
      rw [show Stack.StartRun s false opts env = (opts.foldl applyOpt s).startSeq env
        from by simp [Stack.StartRun, hs, hc]] at hrun
      rcases startSeq_ok_cases _ _ _ _ hrun with h1 | ⟨id, ports, b, rest, hcr, hI, hB, h1⟩
      · subst h1
        simp [foldl_applyOpt_started, hs] at hstart
      · subst h1
        refine ⟨ports, b, rest, hI, hB, ?_⟩
        have hid : id ≠ "" := hg id hcr
        simp [Stack.EndpointURL, hid, pmFind_pmSet_self]
  · intro s h1 h2
    simp [Stack.EndpointURL, h1, h2]

/-- Updating the port map leaves the planned mount list unchanged. -/
theorem getVolumeMounts_pm_update (s : Stack) (x : PortMap) :
    ({ s with pm := x } : Stack).getVolumeMounts = s.getVolumeMounts := rfl

/-- C8.  A create failure that is a name collision for the configured name
is downgraded to a nil result when `reuseExisting` is set: the sequence
ends right after the create call (no container start, no poll, no
inspection), with `started` and `containerID` unchanged; without
`reuseExisting`, or for any other create failure, the wrapped create error
is returned. -/
theorem C8_name_collision_reuse :
    (∀ (s : Stack) (env : StartEnv) (e : String) (cs : List Call),
      s.reuseExisting = true →
      env.createResult = Except.error e →
      strContains e (nameInUseMsg s.containerName) = true →
      ensureImage LocalStackImage env = (cs, Except.ok ()) →
      ∃ s1, Stack.startSeq s env =
          RunResult.ok s1
            (cs ++ [Call.containerCreate LocalStackImage s.containerName
              (pmSet s.pm FixedPort [{ hostIP := "0.0.0.0", hostPort := "" }])
              s.getVolumeMounts]) ∧
        s1.started = s.started ∧ s1.containerID = s.containerID) ∧
    (∀ (s : Stack) (env : StartEnv) (e : String) (cs : List Call),
      env.createResult = Except.error e →
      ensureImage LocalStackImage env = (cs, Except.ok ()) →
      (s.reuseExisting = false ∨ strContains e (nameInUseMsg s.containerName) = false) →
      ∃ s1, Stack.startSeq s env =
          RunResult.err s1
            (cs ++ [Call.containerCreate LocalStackImage s.containerName
              (pmSet s.pm FixedPort [{ hostIP := "0.0.0.0", hostPort := "" }])
              s.getVolumeMounts])
            ("localstack: could not create container: " ++ e) ∧
        s1.started = s.started ∧ s1.containerID = s.containerID) := by
  constructor
  · intro s env e cs hre hC hcon hE
    refine ⟨{ s with pm := pmSet s.pm FixedPort [{ hostIP := "0.0.0.0", hostPort := "" }] },
      ?_, rfl, rfl⟩
    simp [Stack.startSeq, hE, Stack.createStage, hC, hre, hcon, getVolumeMounts_pm_update]
    rfl
  · intro s env e cs hC hE hor
    refine ⟨{ s with pm := pmSet s.pm FixedPort [{ hostIP := "0.0.0.0", hostPort := "" }] },
      ?_, rfl, rfl⟩
    rcases hor with hre | hcon
    · simp [Stack.startSeq, hE, Stack.createStage, hC, hre, getVolumeMounts_pm_update]
      rfl
    · simp [Stack.startSeq, hE, Stack.createStage, hC, hcon, getVolumeMounts_pm_update]

/-- C4.  A failed log fetch or log read makes the readiness check report
not-ready; on a fetched snapshot the check is exactly marker-substring
containment, with the marker defaulting to the literal when unset; the
only error the poll loop ever produces is the timeout error naming the
configured bound, and the loop terminates with an error precisely when
some iteration satisfies the timeout condition (positive configured
timeout exceeded by the elapsed time) with every earlier iteration neither
timing out nor ready. -/
theorem C4_poll_loop_timeout_iff :
    (∀ (s : Stack) (e : String), s.initComplete (LogsResult.fetchErr e) = false) ∧
    (∀ (s : Stack) (e : String), s.initComplete (LogsResult.readErr e) = false) ∧
    (∀ (s : Stack) (text : String),
      s.initComplete (LogsResult.content text) =
        strContains text
          (if s.initCompleteLogLine == "" then "Ready." else s.initCompleteLogLine)) ∧
    (∀ (s : Stack) (obs : List Obs) (e : String),
      (s.pollLoop obs).2 = some (Except.error e) →
      e = timeoutMsg s.initTimeout ∧ 0 < s.initTimeout) ∧
    (∀ (s : Stack) (obs : List Obs),
      (∃ e, (s.pollLoop obs).2 = some (Except.error e)) ↔
        ∃ pre o post, obs = pre ++ o :: post ∧ pollTimedOut s o ∧
          ∀ o' ∈ pre, ¬ pollTimedOut s o' ∧ s.initComplete o'.logs = false) := by
  refine ⟨fun s e => rfl, fun s e => rfl, fun s text => rfl, ?_, ?_⟩
  · intro s obs
    induction obs with
    | nil =>
      intro e h
      simp [Stack.pollLoop] at h
    | cons o rest ih =>
      intro e h
      by_cases hT : pollTimedOut s o
      · simp [Stack.pollLoop, hT] at h
        exact ⟨h.symm, hT.1⟩
      · by_cases hR : s.initComplete o.logs = true
        · simp [Stack.pollLoop, hT, hR] at h
        · have hR' : s.initComplete o.logs = false := by simpa using hR
          simp [Stack.pollLoop, hT, hR'] at h
          exact ih e h
  · intro s obs
    induction obs with
    | nil =>
      simp only [Stack.pollLoop]
      constructor
      · rintro ⟨e, he⟩
        simp at he
      · rintro ⟨pre, o, post, heq, -, -⟩
        cases pre <;> simp at heq
    | cons o rest ih =>
      by_cases hT : pollTimedOut s o
      · constructor
        · intro _
          exact ⟨[], o, rest, rfl, hT, by simp⟩
        · intro _
          exact ⟨timeoutMsg s.initTimeout, by simp [Stack.pollLoop, hT]⟩
      · by_cases hR : s.initComplete o.logs = true
        · constructor
          · rintro ⟨e, he⟩
            simp [Stack.pollLoop, hT, hR] at he
          · rintro ⟨pre, o', post, heq, hT', hpre⟩
            cases pre with
            | nil =>
              simp at heq
              rw [← heq.1] at hT'
              exact absurd hT' hT
            | cons p pre' =>
              simp at heq
              have hmem := (hpre p (by simp)).2
              rw [← heq.1, hR] at hmem
              cases hmem
        · have hR' : s.initComplete o.logs = false := by simpa using hR
          have hstep : (s.pollLoop (o :: rest)).2 = (s.pollLoop rest).2 := by
            simp [Stack.pollLoop, hT, hR']
          rw [hstep, ih]
          constructor
          · rintro ⟨pre, o', post, heq, hT', hpre⟩
            refine ⟨o :: pre, o', post, by rw [heq]; rfl, hT', ?_⟩
            intro o'' ho''
            rcases List.mem_cons.1 ho'' with h1 | h1
            · subst h1
              exact ⟨hT, hR'⟩
            · exact hpre o'' h1
          · rintro ⟨pre, o', post, heq, hT', hpre⟩
            cases pre with
            | nil =>
              simp at heq
              rw [← heq.1] at hT'
              exact absurd hT' hT
            | cons p pre' =>
              simp at heq
              refine ⟨pre', o', post, heq.2, hT', ?_⟩
              intro o'' ho''
              exact hpre o'' (by simp [ho''])

/-- C6.  In every controller state reachable through `Start`/`Stop` calls
(and through the watcher's stop path), a true `started` flag implies a
non-empty `containerID` and a resolved singleton localhost binding stored
for the fixed port. -/
theorem C6_reach_invariant (s : Stack) (h : Reach s) : StackInv s := by
  induction h with
  | init =>
    intro hst
    exact absurd hst (by decide)
  | startStep s0 s' f opts env hr hg hst ih =>
    by_cases hs0 : s0.started = true
    · cases f with
      | false =>
        have he : Stack.StartRun s0 false opts env = RunResult.ok s0 [] := by
          simp [Stack.StartRun, hs0]
        rw [he] at hst
        simp [RunResult.stateOf] at hst
        subst hst
        exact ih
      | true =>
        have he : Stack.StartRun s0 true opts env = RunResult.deadlock [] := by
          simp [Stack.StartRun, hs0]
        rw [he] at hst
        simp [RunResult.stateOf] at hst
    · have hs0' : s0.started = false := by simpa using hs0
      cases hc : env.clientResult with
      | error e =>
        have he : Stack.StartRun s0 f opts env =
            RunResult.err (opts.foldl applyOpt s0) [] e := by
          simp [Stack.StartRun, hs0', hc]
        rw [he] at hst
        simp [RunResult.stateOf] at hst
        subst hst
        intro hstart
        rw [foldl_applyOpt_started, hs0'] at hstart
        cases hstart
      | ok u =>
        have he : Stack.StartRun s0 f opts env = (opts.foldl applyOpt s0).startSeq env := by
          simp [Stack.StartRun, hs0', hc]
        rw [he] at hst
        have hs1 : (opts.foldl applyOpt s0).started = false := by
          rw [foldl_applyOpt_started]
          exact hs0'
        cases hres : (opts.foldl applyOpt s0).startSeq env with
        | ok s'' c =>
          rw [hres] at hst
          simp [RunResult.stateOf] at hst
          subst hst
          exact startSeq_inv _ env hs1 hg _ _ hres
        | err s'' c m =>
          rw [hres] at hst
          simp [RunResult.stateOf] at hst
          subst hst
          have hse := startSeq_err_started _ _ _ _ _ hres
          intro hstart
          rw [hse, hs1] at hstart
          cases hstart
        | crashed s'' c =>
          rw [hres] at hst
          simp [RunResult.stateOf] at hst
        | deadlock c =>
          rw [hres] at hst
          simp [RunResult.stateOf] at hst
        | hang s'' c =>
          rw [hres] at hst
          simp [RunResult.stateOf] at hst
  | stopStep s0 r hr ih =>
    exact stopRun_preserves_inv s0 r ih
  | watcherStep s0 r hr ih =>
    exact stopRun_preserves_inv s0 r ih

/-- C6 witness: the invariant holds at the concrete started state the
all-successful environment produces from `New`, whose reachability is
exhibited explicitly. -/
theorem C6_reach_invariant_witness : StackInv stackAllOk :=
  C6_reach_invariant stackAllOk
    (Reach.startStep New stackAllOk false [] envAllOk Reach.init
      (fun id hid => by
        injection hid with h2
        subst h2
        decide)
      (by rfl))

/-- C1.  An already-started stack makes `Start(false)` a pure no-op: nil
result, no runtime call, state unchanged; hence after a first
`Start(false)` whose sequence completed (left the stack started), a second
`Start(false)` performs nothing, so the whole sequence ran exactly once
across the two calls. -/
theorem C1_start_idempotent_noop :
    (∀ (s : Stack) (opts : List StackOption) (env : StartEnv),
      s.started = true → Stack.StartRun s false opts env = RunResult.ok s []) ∧
    (∀ (s s1 : Stack) (opts opts2 : List StackOption) (env env2 : StartEnv)
        (c1 : List Call),
      Stack.StartRun s false opts env = RunResult.ok s1 c1 → s1.started = true →
      Stack.StartRun s1 false opts2 env2 = RunResult.ok s1 []) := by
  constructor
  · intro s opts env h
    simp [Stack.StartRun, h]
  · intro s s1 opts opts2 env env2 c1 _ h2
    simp [Stack.StartRun, h2]

/-- C2.  A forced restart of a started stack never reaches the stop or the
create: `Start` already holds the mutex and calls the exported `Stop`,
which acquires it again; the mutex run of that path blocks (deadlock), and
no runtime call is issued.  By contrast the other paths' mutex runs
complete. -/
theorem C2_forced_restart_deadlocks :
    (∀ (s : Stack) (opts : List StackOption) (env : StartEnv),
      s.started = true → Stack.StartRun s true opts env = RunResult.deadlock []) ∧
    blocksForever (StartMuOps true true) = true ∧
    blocksForever (StartMuOps true false) = false ∧
    blocksForever (StartMuOps false true) = false ∧
    blocksForever (StartMuOps false false) = false ∧
    blocksForever StopMuOps = false := by
  refine ⟨?_, by decide, by decide, by decide, by decide, by decide⟩
  intro s opts env h
  simp [Stack.StartRun, h]

/-- C5.  `Stop` is a nil no-op with no runtime call when not started or
when no container is owned; otherwise it issues exactly one runtime stop
with a ten-second grace period, clears `containerID` and `started` on
success, and on failure returns the stop error with both fields
unchanged. -/
theorem C5_stop_behaviour :
    (∀ (s : Stack) (r : Except String Unit),
      s.started = false → s.StopRun r = (s, [], Except.ok ())) ∧
    (∀ (s : Stack) (r : Except String Unit),
      s.containerID = "" → s.StopRun r = (s, [], Except.ok ())) ∧
    (∀ s : Stack, s.started = true → s.containerID ≠ "" →
      s.StopRun (Except.ok ()) =
        ({ s with containerID := "", started := false },
         [Call.containerStop s.containerID 10], Except.ok ())) ∧
    (∀ (s : Stack) (e : String), s.started = true → s.containerID ≠ "" →
      s.StopRun (Except.error e) =
        (s, [Call.containerStop s.containerID 10], Except.error e)) := by
  refine ⟨?_, ?_, ?_, ?_⟩
  · intro s r h
    simp [Stack.StopRun, Stack.stopRun, h]
  · intro s r h
    simp [Stack.StopRun, Stack.stopRun, h]
  · intro s h1 h2
    simp [Stack.StopRun, Stack.stopRun, h1, h2]
  · intro s e h1 h2
    simp [Stack.StopRun, Stack.stopRun, h1, h2]

/-- The caller-supplied mounts are all built read-only. -/
theorem filter_rw_of_map_ro (l : List (String × String)) :
    ((l.map fun p =>
        ({ mountType := "bind", source := p.2, target := p.1, readOnly := true } : Mount)).filter
      fun m => !m.readOnly) = [] := by
  induction l with
  | nil => rfl
  | cons h t ih => simpa using ih

/-- C7.  The planned mount list has exactly N+1 entries for N caller pairs:
the sole read-write entry is the docker-socket bind mount (equal source and
target), each caller pair appears as a read-only bind mount with source the
host path and target the container path, and every read-only entry comes
from a caller pair. -/
theorem C7_mount_composition (s : Stack) :
    s.getVolumeMounts.length = s.volumeMounts.length + 1 ∧
    (s.getVolumeMounts.filter fun m => !m.readOnly) =
      [{ mountType := "bind", source := "/var/run/docker.sock",
         target := "/var/run/docker.sock", readOnly := false }] ∧
    (∀ p ∈ s.volumeMounts,
      ({ mountType := "bind", source := p.2, target := p.1, readOnly := true } : Mount) ∈
        s.getVolumeMounts) ∧
    (∀ m ∈ s.getVolumeMounts, m.readOnly = true → (m.target, m.source) ∈ s.volumeMounts) := by
  refine ⟨?_, ?_, ?_, ?_⟩
  · simp [Stack.getVolumeMounts]
  · simp [Stack.getVolumeMounts, List.filter_append, filter_rw_of_map_ro]
  · intro p hp
    exact List.mem_append_left _ (List.mem_map_of_mem _ hp)
  · intro m hm hro
    rcases List.mem_append.1 hm with hl | hr
    · rcases List.mem_map.1 hl with ⟨p, hp, hpe⟩
      subst hpe
      exact hp
    · simp only [List.mem_singleton] at hr
      subst hr
      cases hro

/-- C9 counterexample.  The claim says the exit watcher's stop acquires the
controller's exclusive lock; in the source the watcher calls the private
`s.stop()` directly, so its mutex-operation trace contains no acquire at
all. -/
theorem C9_watcher_no_lock_cex : ¬ (MuOp.acq ∈ watcherMuOps) := by
  decide

/-- C9 amended.  Caller-invoked `Start` and `Stop` wrap their work in an
acquire/release pair of the single exclusive lock, but the exit watcher
invokes the internal unlocked stop, performing no lock operation, so its
mutation of `containerID`/`started` happens outside the lock. -/
theorem C9_lock_discipline_amended :
    StopMuOps = [MuOp.acq, MuOp.rel] ∧
    (∀ st f : Bool, (StartMuOps st f).head? = some MuOp.acq) ∧
    (∀ st f : Bool, (StartMuOps st f).getLast? = some MuOp.rel) ∧
    watcherMuOps = [] ∧
    (∀ s : Stack,
      s.started = true → s.containerID ≠ "" →
      ((s.stopRun (Except.ok ())).1.started = false ∧
        (s.stopRun (Except.ok ())).1.containerID = "")) := by
  refine ⟨by decide, by decide, by decide, by decide, ?_⟩
  intro s h1 h2
  simp [Stack.stopRun, h1, h2]

/-- A poll loop with a non-positive timeout never times out: on any trace
in which no iteration reports ready, it is still running when the trace
ends. -/
theorem pollLoop_nonpos_timeout_none (s : Stack) (h : s.initTimeout ≤ 0)
    (obs : List Obs) (hobs : ∀ o ∈ obs, s.initComplete o.logs = false) :
    (s.pollLoop obs).2 = none := by
  induction obs with
  | nil => rfl
  | cons o rest ih =>
    have hnt : ¬ pollTimedOut s o := by
      rintro ⟨h1, _⟩
      omega
    have hni : s.initComplete o.logs = false := hobs o (List.mem_cons_self o rest)
    simp [Stack.pollLoop, hnt, hni]
    exact ih fun o' ho' => hobs o' (List.mem_cons_of_mem o ho')

/-- C10.  `New` sets `waitForInit` and an empty port map and leaves every
other field at its zero value; consequently a plain `Start` polls for
readiness by default, and with the default `initTimeout` of zero the wait
is unbounded: such a poll loop never terminates with a timeout, and the
default start under `envNeverReady` is still polling when its trace runs
out. -/
theorem C10_new_defaults :
    New.started = false ∧ New.reuseExisting = false ∧ New.containerName = "" ∧
    New.volumeMounts = [] ∧ New.initCompleteLogLine = "" ∧ New.containerID = "" ∧
    New.initTimeout = 0 ∧ New.pm = [] ∧ New.waitForInit = true ∧
    (∀ obs : List Obs, (∀ o ∈ obs, New.initComplete o.logs = false) →
      (New.pollLoop obs).2 = none) ∧
    Stack.StartRun New false [] envNeverReady =
      RunResult.hang
        { New with containerID := "abc123",
                   pm := [(FixedPort, [{ hostIP := "0.0.0.0", hostPort := "" }])] }
        [Call.imageList LocalStackImage,
         Call.containerCreate LocalStackImage ""
           [(FixedPort, [{ hostIP := "0.0.0.0", hostPort := "" }])]
           [{ mountType := "bind", source := "/var/run/docker.sock",
              target := "/var/run/docker.sock", readOnly := false }],
         Call.containerStart "abc123",
         Call.containerLogs "abc123",
         Call.containerLogs "abc123"] := by
  refine ⟨rfl, rfl, rfl, rfl, rfl, rfl, rfl, rfl, rfl, ?_, by rfl⟩
  intro obs hobs
  exact pollLoop_nonpos_timeout_none New (by decide) obs hobs

end Localstack
